import Mathlib

/-!
Verification of the Tebex storefront scraper (`main.py`).

The development shallowly embeds the scraper:

* `Node` models the BeautifulSoup DOM tree that `BeautifulSoup(html, "html.parser")`
  produces; `Sel` models the CSS selectors the source uses (class selectors such as
  `.package-card`, tag selectors such as `h3`, and the attribute selector `a[href]`).
  `select` on the soup returns matches over the whole tree in document (pre-)order;
  `select` on a tag matches only its descendants.
* `parse_products` embeds the extraction cascade of `main.py` line for line:
  the card-selector loop with early break, the per-card name/price selector loops
  using `select_one` and `get_text(strip=True)`, the href resolution against the
  base URL, the Python truthiness defaults (`x or "N/A"`), and the whole-document
  fallback scan `.package-name, .package-title, .package`.
* `save_to_csv` embeds the `csv.DictWriter` output (QUOTE_MINIMAL quoting,
  CRLF row terminator, header row first); `parseCSV` is a standard CSV reader
  used to state the round-trip property.
* `mainEffects`, `notifyStep` and `fetch_page_html` model the orchestrator,
  the Discord notifier and the Playwright fetch as effect traces; exceptions in
  the Python source become `Except` values.
-/

/-- A node of the parsed HTML document: either a text node or an element with a
tag name, a class list, an attribute list and children. Models the soup tree. -/
inductive Node where
  | text (s : String)
  | elem (tag : String) (classes : List String) (attrs : List (String × String))
      (children : List Node)

mutual

def nodeDecEq : (a b : Node) → Decidable (a = b)
  | Node.text s, Node.text t =>
    match decEq s t with
    | isTrue h => isTrue (by rw [h])
    | isFalse h => isFalse (by intro he; injection he; contradiction)
  | Node.text _, Node.elem _ _ _ _ => isFalse (by intro h; exact Node.noConfusion h)
  | Node.elem _ _ _ _, Node.text _ => isFalse (by intro h; exact Node.noConfusion h)
  | Node.elem t1 c1 a1 ch1, Node.elem t2 c2 a2 ch2 =>
    match decEq t1 t2, decEq c1 c2, decEq a1 a2, nodeListDecEq ch1 ch2 with
    | isTrue h1, isTrue h2, isTrue h3, isTrue h4 => isTrue (by rw [h1, h2, h3, h4])
    | isFalse h1, _, _, _ => isFalse (by intro he; injection he; contradiction)
    | _, isFalse h2, _, _ => isFalse (by intro he; injection he; contradiction)
    | _, _, isFalse h3, _ => isFalse (by intro he; injection he; contradiction)
    | _, _, _, isFalse h4 => isFalse (by intro he; injection he; contradiction)

def nodeListDecEq : (a b : List Node) → Decidable (a = b)
  | [], [] => isTrue rfl
  | [], _ :: _ => isFalse (by intro h; exact List.noConfusion h)
  | _ :: _, [] => isFalse (by intro h; exact List.noConfusion h)
  | x :: xs, y :: ys =>
    match nodeDecEq x y, nodeListDecEq xs ys with
    | isTrue h1, isTrue h2 => isTrue (by rw [h1, h2])
    | isFalse h1, _ => isFalse (by intro he; injection he; contradiction)
    | _, isFalse h2 => isFalse (by intro he; injection he; contradiction)

end

instance : DecidableEq Node := nodeDecEq

/-- The CSS selector forms used by the source: a class selector such as
`.package-card`, a bare tag selector such as `h3`, and a tag-with-attribute
selector such as `a[href]`. -/
inductive Sel where
  | classSel (c : String)
  | tagSel (t : String)
  | tagAttrSel (t : String) (a : String)
deriving Repr, DecidableEq

/-- Whether one element node matches one selector (text nodes never match). -/
def matchesSel (s : Sel) : Node → Bool
  | Node.text _ => false
  | Node.elem tag classes attrs _ =>
    match s with
    | Sel.classSel c => classes.contains c
    | Sel.tagSel t => tag == t
    | Sel.tagAttrSel t a => tag == t && attrs.any (fun p => p.1 == a)

mutual

/-- All nodes of the subtree rooted at the node (the node itself included)
satisfying the predicate, in document (pre-)order. -/
def selectP (p : Node → Bool) : Node → List Node
  | Node.text s => if p (Node.text s) then [Node.text s] else []
  | Node.elem tag classes attrs children =>
    (if p (Node.elem tag classes attrs children)
      then [Node.elem tag classes attrs children] else [])
      ++ selectPList p children

/-- The map of `selectP` over a forest, left to right. -/
def selectPList (p : Node → Bool) : List Node → List Node
  | [] => []
  | n :: ns => selectP p n ++ selectPList p ns

end

/-- Embeds `soup.select(sel)`: all matches in the whole document, document order. -/
def selectDoc (s : Sel) (doc : List Node) : List Node :=
  selectPList (matchesSel s) doc

/-- Embeds `tag.select(sel)`: matches among the strict descendants of the node
(the node itself is excluded, as in soupsieve). -/
def selectIn (s : Sel) : Node → List Node
  | Node.text _ => []
  | Node.elem _ _ _ children => selectPList (matchesSel s) children

/-- Embeds `tag.select_one(sel)`: the first descendant match, if any. -/
def selectOneIn (s : Sel) (n : Node) : Option Node :=
  (selectIn s n).head?

mutual

/-- The text-node strings of a subtree, in document order. -/
def textsOf : Node → List String
  | Node.text s => [s]
  | Node.elem _ _ _ children => textsOfList children

/-- The map of `textsOf` over a forest. -/
def textsOfList : List Node → List String
  | [] => []
  | n :: ns => textsOf n ++ textsOfList ns

end

/-- Python `str.strip()`: drop leading and trailing whitespace. -/
def pstrip (s : String) : String :=
  String.mk (((s.data.dropWhile Char.isWhitespace).reverse.dropWhile
    Char.isWhitespace).reverse)

/-- Embeds `tag.get_text(strip=True)`: concatenation of all stripped text fragments
of the subtree, in document order. -/
def getTextStrip (n : Node) : String :=
  String.join ((textsOf n).map pstrip)

/-- Embeds the `tag["href"]` lookup for an element, as an optional lookup in the attribute list. -/
def hrefOf : Node → Option String
  | Node.text _ => none
  | Node.elem _ _ attrs _ => (attrs.find? (fun p => p.1 == "href")).map (fun p => p.2)

/-- Python `s.startswith("/")`. -/
def startsWithSlash (s : String) : Bool :=
  match s.data with
  | [] => false
  | c :: _ => c = '/'

/-- Python `s.rstrip("/")`: drop every trailing slash. -/
def rstripSlash (s : String) : String :=
  String.mk ((s.data.reverse.dropWhile (fun c => c = '/')).reverse)

/-- Python `x or "N/A"` on an optional string: `None` and the empty string are
falsy and give the sentinel. -/
def pyOrNA : Option String → String
  | none => "N/A"
  | some x => if x = "" then "N/A" else x

/-- The list `card_selectors` of `main.py`. -/
def card_selectors : List Sel :=
  [Sel.classSel "package-card", Sel.classSel "package",
   Sel.classSel "package-list-item", Sel.classSel "package--card"]

/-- The list `name_selectors` of `main.py`. -/
def name_selectors : List Sel :=
  [Sel.classSel "package-name", Sel.classSel "package-title", Sel.classSel "name",
   Sel.tagSel "h3", Sel.tagSel "h2"]

/-- The list `price_selectors` of `main.py`. -/
def price_selectors : List Sel :=
  [Sel.classSel "price", Sel.classSel "package-price", Sel.classSel "pkg-price",
   Sel.classSel "price-text"]

/-- The per-card selector loop of `main.py` (used for both name and price):
for each selector in order, `el = c.select_one(sel)`; the first `el` whose
stripped text is non-empty wins; an `el` with empty text does not stop the loop. -/
def tryTextSelectors : List Sel → Node → Option String
  | [], _ => none
  | s :: rest, c =>
    match selectOneIn s c with
    | some el => if getTextStrip el = "" then tryTextSelectors rest c
        else some (getTextStrip el)
    | none => tryTextSelectors rest c

/-- Lines 73-75 of `main.py`: `if link and link.startswith("/"): link =
TEBEX_URL.rstrip("/") + link`. -/
def resolveHref (base : String) : Option String → Option String
  | none => none
  | some l =>
    if l ≠ "" ∧ startsWithSlash l = true then some (rstripSlash base ++ l)
    else some l

/-- One extracted product row. -/
structure ProductRecord where
  name : String
  price : String
  link : String
deriving Repr, DecidableEq

/-- The body of the card loop in `parse_products`: build the record for one
candidate card `c` (name, price, link, with `"N/A"` defaults). -/
def extractCard (base : String) (c : Node) : ProductRecord :=
  let name := tryTextSelectors name_selectors c
  let price := tryTextSelectors price_selectors c
  let link := resolveHref base ((selectOneIn (Sel.tagAttrSel "a" "href") c).bind hrefOf)
  { name := pyOrNA name, price := pyOrNA price, link := pyOrNA link }

/-- The `for card_sel in card_selectors` loop with its `break`: the first
selector with a non-empty match set produces one record per card; later
selectors are not consulted. -/
def cardLoop (base : String) (doc : List Node) : List Sel → List ProductRecord
  | [] => []
  | s :: rest =>
    let cards := selectDoc s doc
    if cards.isEmpty then cardLoop base doc rest
    else cards.map (extractCard base)

/-- The group selector of the fallback scan,
`soup.select(".package-name, .package-title, .package")`. -/
def fallbackPred (n : Node) : Bool :=
  matchesSel (Sel.classSel "package-name") n
    || matchesSel (Sel.classSel "package-title") n
    || matchesSel (Sel.classSel "package") n

/-- Lines 80-86 of `main.py`: the whole-document fallback scan, emitting a
record for every group-selector match with non-empty stripped text. -/
def fallbackNames (doc : List Node) : List ProductRecord :=
  (selectPList fallbackPred doc).filterMap (fun n =>
    if getTextStrip n = "" then none
    else some { name := getTextStrip n, price := "N/A", link := "N/A" })

/-- Embeds `parse_products(html)` of `main.py`, over the parsed document forest. -/
def parse_products (base : String) (doc : List Node) : List ProductRecord :=
  let products := cardLoop base doc card_selectors
  if products.isEmpty then fallbackNames doc else products

/-- The first card selector (in list order) with at least one match in the
document, per the spec description of step 1 of the extraction algorithm. -/
def firstNonEmptyCardSel (doc : List Node) : Option Sel :=
  card_selectors.find? (fun s => !(selectDoc s doc).isEmpty)

theorem cardLoop_eq_of_find (base : String) (doc : List Node) :
    ∀ (sels : List Sel) (s : Sel),
      sels.find? (fun s => !(selectDoc s doc).isEmpty) = some s →
      cardLoop base doc sels = (selectDoc s doc).map (extractCard base) := by
  intro sels
  induction sels with
  | nil => intro s h; simp [List.find?] at h
  | cons a rest ih =>
    intro s h
    rw [List.find?] at h
    by_cases hne : (selectDoc a doc).isEmpty
    · rw [hne] at h
      simp only [Bool.not_true] at h
      rw [cardLoop, if_pos hne]
      exact ih s h
    · rw [eq_false_of_ne_true hne] at h
      simp only [Bool.not_false, Option.some.injEq] at h
      subst h
      rw [cardLoop, if_neg hne]

theorem cardLoop_nonEmpty (base : String) (doc : List Node) (s : Sel)
    (h : firstNonEmptyCardSel doc = some s) :
    (cardLoop base doc card_selectors).isEmpty = false := by
  rw [cardLoop_eq_of_find base doc card_selectors s h]
  have hs := List.find?_some h
  simp only [Bool.not_eq_true'] at hs
  cases hsel : selectDoc s doc with
  | nil => rw [hsel] at hs; simp at hs
  | cons x xs => simp

/-- C1: when at least one card selector matches, `parse_products` returns
exactly the matches of the first matching selector, mapped one-to-one (in
document order) through the per-card extraction; later card selectors and the
fallback scan contribute nothing. -/
theorem parse_products_first_selector (base : String) (doc : List Node) (s : Sel)
    (h : firstNonEmptyCardSel doc = some s) :
    parse_products base doc = (selectDoc s doc).map (extractCard base) := by
  rw [parse_products]
  simp only [cardLoop_nonEmpty base doc s h, Bool.false_eq_true, if_false]
  exact cardLoop_eq_of_find base doc card_selectors s h

/-- Witness for C1: a document whose only card match is under the second
selector `.package`; extraction uses exactly those matches. -/
theorem parse_products_first_selector_witness :
    firstNonEmptyCardSel
        [Node.elem "div" ["package"] [] [Node.text "X"]] = some (Sel.classSel "package") ∧
      parse_products "https://shop.x/" [Node.elem "div" ["package"] [] [Node.text "X"]] =
        (selectDoc (Sel.classSel "package")
            [Node.elem "div" ["package"] [] [Node.text "X"]]).map
          (extractCard "https://shop.x/") :=
  ⟨by decide,
   parse_products_first_selector "https://shop.x/"
     [Node.elem "div" ["package"] [] [Node.text "X"]] (Sel.classSel "package") (by decide)⟩

/-- The spec description of the per-card text extraction: the first selector in
the list whose (first) matching element has non-empty stripped text yields that
text. Stated via `List.findSome?` to compare with the loop in the source. -/
def specFirstText (sels : List Sel) (c : Node) : Option String :=
  sels.findSome? (fun s =>
    (selectOneIn s c).bind (fun el =>
      if getTextStrip el = "" then none else some (getTextStrip el)))

theorem tryTextSelectors_eq_findSome (c : Node) :
    ∀ sels : List Sel, tryTextSelectors sels c = specFirstText sels c := by
  intro sels
  induction sels with
  | nil => rfl
  | cons s rest ih =>
    rw [tryTextSelectors, specFirstText, List.findSome?]
    cases hsel : selectOneIn s c with
    | none => simpa [hsel, Option.bind] using ih
    | some el =>
      by_cases ht : getTextStrip el = ""
      · simpa [hsel, Option.bind, ht] using ih
      · simp [hsel, Option.bind, ht]

theorem tryTextSelectors_ne_empty (c : Node) :
    ∀ (sels : List Sel) (x : String), tryTextSelectors sels c = some x → x ≠ "" := by
  intro sels
  induction sels with
  | nil => intro x h; simp [tryTextSelectors] at h
  | cons s rest ih =>
    intro x h
    rw [tryTextSelectors] at h
    cases hsel : selectOneIn s c with
    | none => rw [hsel] at h; exact ih x h
    | some el =>
      rw [hsel] at h
      simp only at h
      by_cases ht : getTextStrip el = ""
      · rw [if_pos ht] at h; exact ih x h
      · rw [if_neg ht] at h
        injection h with h
        subst h; exact ht

theorem pyOrNA_of_ne_empty (o : Option String) (h : ∀ x, o = some x → x ≠ "") :
    pyOrNA o = o.getD "N/A" := by
  cases o with
  | none => rfl
  | some x =>
    have hx := h x rfl
    simp [pyOrNA, Option.getD, hx]

/-- C4: for every card, the extracted `name` is the non-empty stripped text
of the first name selector (selectors tried in the fixed order, each contributing
its first match in the card subtree), with `"N/A"` when all fail; and the same
independently for `price` with the price selectors. -/
theorem extractCard_name_price (base : String) (c : Node) :
    (extractCard base c).name = (specFirstText name_selectors c).getD "N/A" ∧
      (extractCard base c).price = (specFirstText price_selectors c).getD "N/A" := by
  constructor
  · show pyOrNA (tryTextSelectors name_selectors c) = _
    rw [pyOrNA_of_ne_empty _ (tryTextSelectors_ne_empty c name_selectors),
      tryTextSelectors_eq_findSome c name_selectors]
  · show pyOrNA (tryTextSelectors price_selectors c) = _
    rw [pyOrNA_of_ne_empty _ (tryTextSelectors_ne_empty c price_selectors),
      tryTextSelectors_eq_findSome c price_selectors]

/-- The href of the first anchor with an `href` attribute in the card subtree:
`c.select_one("a[href]")` followed by the `["href"]` lookup. -/
def firstHref (c : Node) : Option String :=
  (selectOneIn (Sel.tagAttrSel "a" "href") c).bind hrefOf

theorem string_data_append (a b : String) : (a ++ b).data = a.data ++ b.data := by
  cases a; cases b; rfl

theorem string_eq_empty_iff (s : String) : s = "" ↔ s.data = [] := by
  cases s with
  | mk l =>
    constructor
    · intro h
      exact congrArg String.data h
    · intro h
      have hl : l = [] := h
      subst hl
      rfl

theorem append_ne_empty_of_right (a b : String) (h : b ≠ "") : a ++ b ≠ "" := by
  intro he
  rw [string_eq_empty_iff, string_data_append] at he
  exact h ((string_eq_empty_iff b).mpr (List.append_eq_nil.mp he).2)

theorem startsWithSlash_ne_empty (s : String) (h : startsWithSlash s = true) :
    s ≠ "" := by
  intro he
  subst he
  exact absurd h (by decide)

/-- C2 (amended): the link of a card record is `"N/A"` when the card has no
anchor with an href or when that href is the empty string; otherwise a
root-relative href is resolved against the base URL (trailing slashes
stripped) and any other href is used verbatim. -/
theorem extractCard_link (base : String) (c : Node) :
    (extractCard base c).link =
      match firstHref c with
      | none => "N/A"
      | some h =>
        if h = "" then "N/A"
        else if startsWithSlash h then rstripSlash base ++ h else h := by
  show pyOrNA (resolveHref base (firstHref c)) = _
  cases hf : firstHref c with
  | none => rfl
  | some hl =>
    by_cases he : hl = ""
    · subst he
      simp [resolveHref, pyOrNA]
    · cases hsw : startsWithSlash hl with
      | false => simp [resolveHref, pyOrNA, he, hsw]
      | true =>
        have hne : rstripSlash base ++ hl ≠ "" := append_ne_empty_of_right _ _ he
        simp [resolveHref, pyOrNA, he, hsw, hne]

/-- Counterexample to C2 as stated: a card whose first (and only) anchor
carries `href=""`. The href does not start with `/`, so the claim requires the
link to equal the href verbatim (the empty string), but the extractor yields
`"N/A"`. -/
theorem extractCard_link_empty_href_counterexample :
    firstHref (Node.elem "div" ["package-card"] []
        [Node.elem "a" [] [("href", "")] []]) = some "" ∧
      startsWithSlash "" = false ∧
      (extractCard "https://shop.example/"
          (Node.elem "div" ["package-card"] []
            [Node.elem "a" [] [("href", "")] []])).link = "N/A" ∧
      ("N/A" : String) ≠ "" := by
  refine ⟨by decide, by decide, by decide, by decide⟩

/-- C9: a card whose first anchor-with-href has an empty href value gets the
sentinel link `"N/A"`, not the empty string. -/
theorem extractCard_link_empty_href (base : String) (c : Node)
    (h : firstHref c = some "") :
    (extractCard base c).link = "N/A" := by
  rw [extractCard_link base c, h]
  rfl

/-- Witness for C9 at a concrete card with `href=""`. -/
theorem extractCard_link_empty_href_witness :
    firstHref (Node.elem "li" ["package"] []
        [Node.elem "a" ["buy"] [("href", "")] [Node.text "Buy"]]) = some "" ∧
      (extractCard "https://base.example"
          (Node.elem "li" ["package"] []
            [Node.elem "a" ["buy"] [("href", "")] [Node.text "Buy"]])).link = "N/A" :=
  ⟨by decide,
   extractCard_link_empty_href "https://base.example"
     (Node.elem "li" ["package"] []
       [Node.elem "a" ["buy"] [("href", "")] [Node.text "Buy"]]) (by decide)⟩

/-- The fallback scan as the claim words it: select elements matching any of
the name-like selectors (`name_selectors`, which include `.name`, `h3` and
`h2`) against the whole document, and emit a record for each one with
non-empty stripped text. Stated for comparison with the fallback the source
actually performs (`fallbackNames`, whose group is
`.package-name, .package-title, .package`). -/
def claimFallbackRecords (doc : List Node) : List ProductRecord :=
  (selectPList (fun n => name_selectors.any (fun s => matchesSel s n)) doc).filterMap
    (fun n =>
      if getTextStrip n = "" then none
      else some { name := getTextStrip n, price := "N/A", link := "N/A" })

theorem cardLoop_eq_nil (base : String) (doc : List Node) :
    ∀ sels : List Sel, (∀ s ∈ sels, selectDoc s doc = []) →
      cardLoop base doc sels = [] := by
  intro sels
  induction sels with
  | nil => intro _; rfl
  | cons a rest ih =>
    intro h
    rw [cardLoop]
    have ha : selectDoc a doc = [] := h a (List.mem_cons_self a rest)
    rw [ha]
    simp only [List.isEmpty_nil, if_true]
    exact ih (fun s hs => h s (List.mem_cons_of_mem a hs))

/-- C3 (amended): when no card selector matches, `parse_products` performs the
whole-document fallback scan with the group selector
`.package-name, .package-title, .package` (not the full name-selector list),
emitting one record per match with non-empty stripped text, and returns the
empty list (not an error) when that scan also finds nothing. -/
theorem parse_products_fallback (base : String) (doc : List Node)
    (h : ∀ s ∈ card_selectors, selectDoc s doc = []) :
    parse_products base doc = fallbackNames doc := by
  rw [parse_products]
  rw [cardLoop_eq_nil base doc card_selectors h]
  rfl

/-- Counterexample to C3 as stated: a document whose only element is a bare
`h3` heading. No card selector matches, and `h3` is one of the name-like
selectors, so the claim requires a fallback record for it; but the fallback in
the code selects only `.package-name, .package-title, .package`, so
`parse_products` returns the empty list. -/
theorem parse_products_fallback_counterexample :
    (∀ s ∈ card_selectors,
        selectDoc s [Node.elem "h3" [] [] [Node.text "Foo"]] = []) ∧
      claimFallbackRecords [Node.elem "h3" [] [] [Node.text "Foo"]] =
        [{ name := "Foo", price := "N/A", link := "N/A" }] ∧
      parse_products "https://shop.x/" [Node.elem "h3" [] [] [Node.text "Foo"]] = [] ∧
      parse_products "https://shop.x/" [Node.elem "h3" [] [] [Node.text "Foo"]] ≠
        claimFallbackRecords [Node.elem "h3" [] [] [Node.text "Foo"]] := by
  refine ⟨by decide, by decide, by decide, by decide⟩

/-- Witness for the amended C3 at a document with one `.package-title`
element and no cards. -/
theorem parse_products_fallback_witness :
    (∀ s ∈ card_selectors,
        selectDoc s [Node.elem "span" ["package-title"] [] [Node.text "Deal"]] = []) ∧
      parse_products "https://shop.x/"
          [Node.elem "span" ["package-title"] [] [Node.text "Deal"]] =
        fallbackNames [Node.elem "span" ["package-title"] [] [Node.text "Deal"]] :=
  ⟨by decide,
   parse_products_fallback "https://shop.x/"
     [Node.elem "span" ["package-title"] [] [Node.text "Deal"]] (by decide)⟩

theorem pyOrNA_ne_empty (o : Option String) : pyOrNA o ≠ "" := by
  cases o with
  | none => decide
  | some x =>
    rw [pyOrNA]
    by_cases h : x = ""
    · rw [if_pos h]; decide
    · rw [if_neg h]; exact h

theorem mem_cardLoop (base : String) (doc : List Node) (r : ProductRecord) :
    ∀ sels : List Sel, r ∈ cardLoop base doc sels → ∃ c, r = extractCard base c := by
  intro sels
  induction sels with
  | nil => intro h; simp [cardLoop] at h
  | cons a rest ih =>
    intro h
    rw [cardLoop] at h
    by_cases he : (selectDoc a doc).isEmpty
    · rw [if_pos he] at h; exact ih h
    · rw [if_neg he] at h
      rcases List.mem_map.mp h with ⟨c, _, hc⟩
      exact ⟨c, hc.symm⟩

theorem mem_fallbackNames (doc : List Node) (r : ProductRecord)
    (h : r ∈ fallbackNames doc) :
    r.name ≠ "" ∧ r.price = "N/A" ∧ r.link = "N/A" := by
  rcases List.mem_filterMap.mp h with ⟨n, _, hn⟩
  by_cases ht : getTextStrip n = ""
  · rw [if_pos ht] at hn; exact absurd hn (by simp)
  · rw [if_neg ht] at hn
    injection hn with hn
    rw [← hn]
    exact ⟨ht, rfl, rfl⟩

/-- C10: every record produced by the extractor, on either path, has non-empty
`name`, `price` and `link` fields — the empty string never escapes. -/
theorem parse_products_fields_ne_empty (base : String) (doc : List Node)
    (r : ProductRecord) (h : r ∈ parse_products base doc) :
    r.name ≠ "" ∧ r.price ≠ "" ∧ r.link ≠ "" := by
  rw [parse_products] at h
  by_cases he : (cardLoop base doc card_selectors).isEmpty
  · rw [if_pos he] at h
    rcases mem_fallbackNames doc r h with ⟨hn, hp, hl⟩
    refine ⟨hn, ?_, ?_⟩
    · rw [hp]; decide
    · rw [hl]; decide
  · rw [if_neg he] at h
    rcases mem_cardLoop base doc r card_selectors h with ⟨c, hc⟩
    subst hc
    exact ⟨pyOrNA_ne_empty _, pyOrNA_ne_empty _, pyOrNA_ne_empty _⟩

/-- Witness for C10 at a concrete one-card document. -/
theorem parse_products_fields_ne_empty_witness :
    ({ name := "Item", price := "N/A", link := "N/A" } : ProductRecord) ∈
        parse_products "https://shop.x/"
          [Node.elem "div" ["package-card"] [] [Node.elem "h2" [] [] [Node.text "Item"]]] ∧
      (({ name := "Item", price := "N/A", link := "N/A" } : ProductRecord).name ≠ "" ∧
        (({ name := "Item", price := "N/A", link := "N/A" } : ProductRecord)).price ≠ "" ∧
        (({ name := "Item", price := "N/A", link := "N/A" } : ProductRecord)).link ≠ "") :=
  ⟨by decide,
   parse_products_fields_ne_empty "https://shop.x/"
     [Node.elem "div" ["package-card"] [] [Node.elem "h2" [] [] [Node.text "Item"]]]
     { name := "Item", price := "N/A", link := "N/A" } (by decide)⟩

/-- Whether `csv.writer` with the default QUOTE_MINIMAL dialect must quote a
field: it contains the delimiter, the quote char, or a line-terminator char. -/
def needsQuote (f : List Char) : Bool :=
  f.any (fun c => c = ',' || c = '"' || c = '\r' || c = '\n')

/-- Double every quote char, as the writer does inside a quoted field. -/
def escQuotes : List Char → List Char
  | [] => []
  | c :: cs => if c = '"' then '"' :: '"' :: escQuotes cs else c :: escQuotes cs

/-- One CSV field as the writer emits it. -/
def encodeField (f : List Char) : List Char :=
  if needsQuote f then '"' :: (escQuotes f ++ ['"']) else f

/-- One CSV row (`name,price,link` and the CRLF terminator) as
`csv.DictWriter.writerow` emits it. -/
def encodeRow (r : ProductRecord) : List Char :=
  encodeField r.name.data ++ [','] ++ encodeField r.price.data ++ [','] ++
    encodeField r.link.data ++ ['\r', '\n']

/-- The rows of the body, in input order. -/
def encodeRows : List ProductRecord → List Char
  | [] => []
  | r :: rs => encodeRow r ++ encodeRows rs

/-- Embeds `save_to_csv(items, path)` of `main.py`: the bytes written to the file —
the `writeheader()` row (the field names as an ordinary row) followed by one
row per record in input order. -/
def save_to_csv (items : List ProductRecord) : String :=
  String.mk (encodeRow { name := "name", price := "price", link := "link" } ++
    encodeRows items)

/-- Standard CSV reader, unquoted field: read up to the delimiter or the row
terminator. -/
def parseUnquoted : List Char → List Char × List Char
  | [] => ([], [])
  | c :: cs =>
    if c = ',' ∨ c = '\r' then ([], c :: cs)
    else
      let p := parseUnquoted cs
      (c :: p.1, p.2)

/-- Standard CSV reader, the inside of a quoted field: a doubled quote is an
escaped quote, a single quote closes the field, anything else is content.
`none` on an unterminated quote. -/
def parseQuoted : List Char → Option (List Char × List Char)
  | [] => none
  | c :: cs =>
    if c = '"' then
      match cs with
      | [] => some ([], [])
      | c2 :: cs2 =>
        if c2 = '"' then (parseQuoted cs2).map (fun p => ('"' :: p.1, p.2))
        else some ([], cs)
    else (parseQuoted cs).map (fun p => (c :: p.1, p.2))

/-- One CSV field: quoted if it opens with a quote, unquoted otherwise. -/
def parseField (cs : List Char) : Option (List Char × List Char) :=
  match cs with
  | [] => some ([], [])
  | c :: rest => if c = '"' then parseQuoted rest else some (parseUnquoted (c :: rest))

/-- Consume one expected character. -/
def expectChar (c : Char) : List Char → Option (List Char)
  | [] => none
  | d :: rest => if d = c then some rest else none

/-- One three-field CSV row terminated by CRLF. -/
def parseRowCSV (cs : List Char) :
    Option ((List Char × List Char × List Char) × List Char) := do
  let p1 ← parseField cs
  let r1 ← expectChar ',' p1.2
  let p2 ← parseField r1
  let r2 ← expectChar ',' p2.2
  let p3 ← parseField r2
  let r3 ← expectChar '\r' p3.2
  let r4 ← expectChar '\n' r3
  pure ((p1.1, p2.1, p3.1), r4)

/-- All rows until the input is exhausted, with fuel for termination. -/
def parseRowsCSV : Nat → List Char → Option (List (List Char × List Char × List Char))
  | _, [] => some []
  | 0, _ :: _ => none
  | n + 1, c :: cs => do
    let pr ← parseRowCSV (c :: cs)
    let rest ← parseRowsCSV n pr.2
    pure (pr.1 :: rest)

/-- A parsed row as a string triple. -/
def tupleOfRow (t : List Char × List Char × List Char) : String × String × String :=
  (String.mk t.1, String.mk t.2.1, String.mk t.2.2)

/-- Re-reading a produced CSV file with a standard CSV reader. -/
def parseCSV (s : String) : Option (List (String × String × String)) :=
  (parseRowsCSV s.data.length s.data).map (List.map tupleOfRow)

theorem parseUnquoted_encode (f : List Char) (hq : needsQuote f = false) :
    ∀ (d : Char) (rest : List Char), d = ',' ∨ d = '\r' →
      parseUnquoted (f ++ d :: rest) = (f, d :: rest) := by
  induction f with
  | nil =>
    intro d rest hd
    have hdor : d = ',' ∨ d = '\r' := hd
    simp [parseUnquoted, hdor]
  | cons c f ih =>
    intro d rest hd
    simp only [needsQuote, List.any_cons, Bool.or_eq_false_iff,
      decide_eq_false_iff_not] at hq
    rcases hq with ⟨⟨⟨⟨hc1, _⟩, hc3⟩, _⟩, hf⟩
    have hcor : ¬(c = ',' ∨ c = '\r') := by
      intro hor
      cases hor with
      | inl h => exact hc1 h
      | inr h => exact hc3 h
    rw [List.cons_append, parseUnquoted]
    rw [if_neg hcor]
    rw [ih hf d rest hd]

theorem parseQuoted_encode (f : List Char) :
    ∀ (d : Char) (rest : List Char), d ≠ '"' →
      parseQuoted (escQuotes f ++ '"' :: d :: rest) = some (f, d :: rest) := by
  induction f with
  | nil =>
    intro d rest hd
    simp [escQuotes, parseQuoted, hd]
  | cons c f ih =>
    intro d rest hd
    by_cases hc : c = '"'
    · subst hc
      have hesc : escQuotes ('"' :: f) = '"' :: '"' :: escQuotes f := rfl
      rw [hesc]
      simp only [List.cons_append]
      have hstep : parseQuoted ('"' :: '"' :: (escQuotes f ++ '"' :: d :: rest)) =
          (parseQuoted (escQuotes f ++ '"' :: d :: rest)).map
            (fun p => ('"' :: p.1, p.2)) := rfl
      rw [hstep, ih d rest hd]
      rfl
    · rw [escQuotes, if_neg hc, List.cons_append, parseQuoted.eq_def]
      dsimp only
      rw [if_neg hc, ih d rest hd]
      rfl

theorem parseField_encode (f : List Char) (d : Char) (rest : List Char)
    (hd : d = ',' ∨ d = '\r') :
    parseField (encodeField f ++ d :: rest) = some (f, d :: rest) := by
  have hdq : d ≠ '"' := by
    cases hd with
    | inl h => subst h; decide
    | inr h => subst h; decide
  rw [encodeField]
  by_cases hq : needsQuote f
  · rw [if_pos hq]
    rw [List.cons_append, parseField, if_pos rfl, List.append_assoc,
      List.cons_append, List.nil_append]
    exact parseQuoted_encode f d rest hdq
  · rw [if_neg hq]
    cases f with
    | nil =>
      rw [List.nil_append, parseField, if_neg hdq]
      have hz : parseUnquoted (d :: rest) = ([], d :: rest) :=
        parseUnquoted_encode [] (by decide) d rest hd
      rw [hz]
    | cons c cs =>
      have hq' : needsQuote (c :: cs) = false := eq_false_of_ne_true hq
      have hc : ¬c = '"' := by
        simp only [needsQuote, List.any_cons, Bool.or_eq_false_iff,
          decide_eq_false_iff_not] at hq'
        exact hq'.1.1.1.2
      rw [List.cons_append, parseField, if_neg hc, ← List.cons_append,
        parseUnquoted_encode (c :: cs) (eq_false_of_ne_true hq) d rest hd]

theorem parseRowCSV_encode (r : ProductRecord) (rest : List Char) :
    parseRowCSV (encodeRow r ++ rest) =
      some ((r.name.data, r.price.data, r.link.data), rest) := by
  have hc : ∀ (f : List Char) (t : List Char),
      parseField (encodeField f ++ ',' :: t) = some (f, ',' :: t) :=
    fun f t => parseField_encode f ',' t (Or.inl rfl)
  have hr : ∀ (f : List Char) (t : List Char),
      parseField (encodeField f ++ '\r' :: t) = some (f, '\r' :: t) :=
    fun f t => parseField_encode f '\r' t (Or.inr rfl)
  rw [encodeRow]
  simp only [List.append_assoc, List.cons_append, List.nil_append]
  simp [parseRowCSV, hc, hr, expectChar]

theorem encodeRow_ne_nil (r : ProductRecord) : encodeRow r ≠ [] := by
  rw [encodeRow]
  simp

theorem parseRowsCSV_encode :
    ∀ (rows : List ProductRecord) (n : Nat), rows.length ≤ n →
      parseRowsCSV n (encodeRows rows) =
        some (rows.map (fun r => (r.name.data, r.price.data, r.link.data))) := by
  intro rows
  induction rows with
  | nil =>
    intro n _
    rw [encodeRows]
    cases n <;> rfl
  | cons r rs ih =>
    intro n hn
    cases n with
    | zero => exact absurd hn (by simp)
    | succ m =>
      rw [encodeRows]
      cases hrow : encodeRow r with
      | nil => exact absurd hrow (encodeRow_ne_nil r)
      | cons c cs =>
        rw [List.cons_append, parseRowsCSV]
        have hone : parseRowCSV (c :: (cs ++ encodeRows rs)) =
            some ((r.name.data, r.price.data, r.link.data), encodeRows rs) := by
          rw [← List.cons_append, ← hrow]
          exact parseRowCSV_encode r (encodeRows rs)
        have hm : rs.length ≤ m := by
          simp only [List.length_cons] at hn
          omega
        simp [hone, ih m hm]

theorem rows_length_le_encodeRows_length :
    ∀ rows : List ProductRecord, rows.length ≤ (encodeRows rows).length := by
  intro rows
  induction rows with
  | nil => simp [encodeRows]
  | cons r rs ih =>
    rw [encodeRows, List.length_append, List.length_cons]
    have h1 : 1 ≤ (encodeRow r).length :=
      List.length_pos.mpr (encodeRow_ne_nil r)
    omega

theorem stringMk_data (s : String) : String.mk s.data = s := by
  cases s
  rfl

/-- C5: writing any record list with `save_to_csv` yields a file whose first
row is the header `name,price,link`, followed by one row per record in input
order; re-reading it with a standard CSV reader recovers exactly the input
triples. -/
theorem save_to_csv_roundtrip (items : List ProductRecord) :
    parseCSV (save_to_csv items) =
      some (("name", "price", "link") ::
        items.map (fun r => (r.name, r.price, r.link))) := by
  have hdata : (save_to_csv items).data =
      encodeRows ({ name := "name", price := "price", link := "link" } :: items) :=
    rfl
  rw [parseCSV, hdata,
    parseRowsCSV_encode _ _ (rows_length_le_encodeRows_length _)]
  simp [List.map_map, tupleOfRow, stringMk_data, Function.comp]

/-- An observable side effect of one run of `main`. -/
inductive Effect where
  | writeFile (path : String) (content : String)
  | notify (path : String) (webhook : String)
deriving Repr, DecidableEq

/-- The fetched page as `main` sees it: the raw HTML text returned by the
fetcher and the document tree BeautifulSoup parses from it. -/
structure FetchResult where
  raw : String
  dom : List Node

/-- The effect trace of `main()` (lines 112-129 of `main.py`) after a
successful fetch: on the empty path, write the diagnostic `page.html` with the
fetched content and stop; otherwise write the CSV and, only when a webhook is
configured, attempt the notification. -/
def mainEffects (base : String) (webhook : Option String) (fr : FetchResult) :
    List Effect :=
  let products := parse_products base fr.dom
  if products.isEmpty then
    [Effect.writeFile "output/page.html" fr.raw]
  else
    Effect.writeFile "output/products.csv" (save_to_csv products) ::
      (match webhook with
       | some w => [Effect.notify "output/products.csv" w]
       | none => [])

/-- C6: on a run where extraction is empty, the only effect is writing the
diagnostic HTML file with the fetched content unchanged — no CSV file and no
notification. -/
theorem mainEffects_empty (base : String) (webhook : Option String)
    (fr : FetchResult) (h : parse_products base fr.dom = []) :
    mainEffects base webhook fr = [Effect.writeFile "output/page.html" fr.raw] := by
  simp [mainEffects, h]

/-- Witness for C6: a page whose document contains no products at all, with a
webhook configured; only the diagnostic write happens. -/
theorem mainEffects_empty_witness :
    parse_products "https://shop.x/"
        (FetchResult.mk "<html><body>maintenance</body></html>"
          [Node.elem "body" [] [] [Node.text "maintenance"]]).dom = [] ∧
      mainEffects "https://shop.x/" (some "https://discord.example/hook")
          (FetchResult.mk "<html><body>maintenance</body></html>"
            [Node.elem "body" [] [] [Node.text "maintenance"]]) =
        [Effect.writeFile "output/page.html" "<html><body>maintenance</body></html>"] :=
  ⟨by decide,
   mainEffects_empty "https://shop.x/" (some "https://discord.example/hook")
     (FetchResult.mk "<html><body>maintenance</body></html>"
       [Node.elem "body" [] [] [Node.text "maintenance"]]) (by decide)⟩

/-- What the notifier records for one attempt. -/
inductive NotifyLog where
  | success
  | warnStatus (code : Nat)
  | exceptionLogged (msg : String)
deriving Repr, DecidableEq

/-- The outcome of the notification step as the orchestrator sees it:
either the run proceeds (with a log entry) or it would abort. -/
inductive StepOutcome where
  | proceeds (log : NotifyLog)
  | aborts (msg : String)
deriving Repr, DecidableEq

/-- Embeds `post_to_discord` (lines 100-109): the HTTP response is either a transport
failure (an exception from `requests.post`, modelled as `Except.error`) which
propagates, or a status code; 200 and 204 log success, every other status
logs a warning and returns normally. -/
def post_to_discord (resp : Except String Nat) : Except String NotifyLog :=
  match resp with
  | Except.error e => Except.error e
  | Except.ok code =>
    Except.ok (if code = 200 ∨ code = 204 then NotifyLog.success
      else NotifyLog.warnStatus code)

/-- Embeds the `try/except` around the notification in `main` (lines 125-129): any
exception raised by `post_to_discord` is caught and logged; the run proceeds
in every case. -/
def notifyStep (resp : Except String Nat) : StepOutcome :=
  match post_to_discord resp with
  | Except.ok log => StepOutcome.proceeds log
  | Except.error e => StepOutcome.proceeds (NotifyLog.exceptionLogged e)

/-- C7: status 200 and 204 are success; any other status is a non-fatal
warning; every transport-level failure is caught and logged; in no case does
the notification step abort the run. -/
theorem notifyStep_spec (resp : Except String Nat) :
    (∀ m, notifyStep resp ≠ StepOutcome.aborts m) ∧
      (resp = Except.ok 200 → notifyStep resp = StepOutcome.proceeds NotifyLog.success) ∧
      (resp = Except.ok 204 → notifyStep resp = StepOutcome.proceeds NotifyLog.success) ∧
      (∀ code, resp = Except.ok code → code ≠ 200 → code ≠ 204 →
        notifyStep resp = StepOutcome.proceeds (NotifyLog.warnStatus code)) ∧
      (∀ e, resp = Except.error e →
        notifyStep resp = StepOutcome.proceeds (NotifyLog.exceptionLogged e)) := by
  refine ⟨?_, ?_, ?_, ?_, ?_⟩
  · intro m hm
    cases resp with
    | error e => simp [notifyStep, post_to_discord] at hm
    | ok code => simp [notifyStep, post_to_discord] at hm
  · intro h; subst h; rfl
  · intro h; subst h; rfl
  · intro code h h200 h204
    subst h
    rw [notifyStep, post_to_discord]
    have : ¬(code = 200 ∨ code = 204) := by
      intro hor
      cases hor with
      | inl hh => exact h200 hh
      | inr hh => exact h204 hh
    rw [if_neg this]
  · intro e h; subst h; rfl

/-- Witness for C7 at status 404 and at a connection timeout. -/
theorem notifyStep_spec_witness :
    notifyStep (Except.ok 404) = StepOutcome.proceeds (NotifyLog.warnStatus 404) ∧
      notifyStep (Except.error "ConnectTimeout") =
        StepOutcome.proceeds (NotifyLog.exceptionLogged "ConnectTimeout") :=
  ⟨(notifyStep_spec (Except.ok 404)).2.2.2.1 404 rfl (by decide) (by decide),
   (notifyStep_spec (Except.error "ConnectTimeout")).2.2.2.2 "ConnectTimeout" rfl⟩

/-- A browser-session lifecycle event inside `fetch_page_html`. -/
inductive SessionEvent where
  | playwrightStart
  | browserLaunch
  | browserClose
  | playwrightStop
deriving Repr, DecidableEq

/-- Embeds `fetch_page_html` (lines 19-33): the body runs inside
`with sync_playwright() as p:`, whose exit handler (modelled as the trailing
`playwrightStop` event) runs whether the body returns the page content or
raises a navigation error or timeout; `browserClose` is reached only on
success, and the navigation outcome is passed through unchanged. -/
def fetch_page_html (nav : Except String String) :
    List SessionEvent × Except String String :=
  let body : List SessionEvent × Except String String :=
    match nav with
    | Except.error e => ([SessionEvent.browserLaunch], Except.error e)
    | Except.ok html =>
      ([SessionEvent.browserLaunch, SessionEvent.browserClose], Except.ok html)
  (SessionEvent.playwrightStart :: body.1 ++ [SessionEvent.playwrightStop], body.2)

/-- C8: whatever the navigation outcome — success, navigation error or
timeout — the fetch trace ends with the session release event, and the
navigation result is returned or re-raised unchanged. -/
theorem fetch_page_html_releases (nav : Except String String) :
    (fetch_page_html nav).1.getLast? = some SessionEvent.playwrightStop ∧
      SessionEvent.playwrightStop ∈ (fetch_page_html nav).1 ∧
      (fetch_page_html nav).2 = nav := by
  cases nav with
  | error e =>
    refine ⟨rfl, ?_, rfl⟩
    rw [fetch_page_html]
    simp
  | ok html =>
    refine ⟨rfl, ?_, rfl⟩
    rw [fetch_page_html]
    simp

-- sanity check: spec section 8 example scenario
example :
    parse_products "https://shop.x/"
      [Node.elem "div" ["package-card"] []
        [Node.elem "h3" [] [] [Node.text "Starter"],
         Node.elem "span" ["price"] [] [Node.text "$5.00"],
         Node.elem "a" [] [("href", "/buy/1")] [Node.text "Buy"]]] =
      [{ name := "Starter", price := "$5.00", link := "https://shop.x/buy/1" }] := by
  decide
